import Mathlib

/-!
Verification of the limit-order-book core (`src/lib.rs`, `src/primitives.rs`).

Shallow embedding conventions:
* `Price` values are the raw `u64` IEEE-754 bit pattern of the Rust `f64`
  price, modelled as `ℕ`.  The source compares prices with
  `f64::to_bits(..).cmp(..)`, i.e. with the natural-number order on the
  bit pattern, and uses bit equality as map-key equality, so every price
  comparison in the book code is literally the `ℕ` comparison used here.
* `Volume`, `Oid`, `Timestamp` are `u64` newtypes, modelled as `ℕ`.
* Rust `HashMap`s are modelled as association lists with first-occurrence
  lookup; `store` is `HashMap::insert` (replace-or-append) and `removeKey`
  is `HashMap::remove` (returns the removed value).
* The `StableVec<Level>` arena is a `List Level`: the source never removes
  a level from the arena, so `push` appends at index `length` and indices
  are stable.
* `VecDeque<Oid>` is a `List ℕ` with `front` = head and `push_back` =
  append.
* The Rust `panic!("OrderBook is corrupted")` calls are modelled by a
  dedicated `corrupted` result constructor.
-/

namespace LOB

/-- Association-list lookup (first matching key), modelling `HashMap::get`. -/
def look {α : Type} (k : ℕ) : List (ℕ × α) → Option α
  | [] => none
  | (k', v) :: rest => if k' = k then some v else look k rest

/-- Association-list insert, modelling `HashMap::insert`: replaces the
first binding of the key, otherwise appends. -/
def store {α : Type} (k : ℕ) (v : α) : List (ℕ × α) → List (ℕ × α)
  | [] => [(k, v)]
  | (k', v') :: rest =>
      if k' = k then (k, v) :: rest else (k', v') :: store k v rest

/-- Association-list removal, modelling `HashMap::remove`: drops the first
binding of the key and returns its value. -/
def removeKey {α : Type} (k : ℕ) : List (ℕ × α) → Option α × List (ℕ × α)
  | [] => (none, [])
  | (k', v') :: rest =>
      if k' = k then (some v', rest)
      else
        let r := removeKey k rest
        (r.1, (k', v') :: r.2)

/-- In-place update at an index, modelling `StableVec::get_mut` followed by a
mutation: a no-op when the index is absent. -/
def modifyAt {α : Type} (l : List α) (i : ℕ) (f : α → α) : List α :=
  match l, i with
  | [], _ => []
  | x :: xs, 0 => f x :: xs
  | x :: xs, n + 1 => x :: modifyAt xs n f

/-- `OrderSide` from `src/primitives.rs`. -/
inductive OrderSide where
  | Buy
  | Sell
deriving DecidableEq

/-- `OrderType` from `src/primitives.rs`. -/
inductive OrderType where
  | Market
  | Limit
deriving DecidableEq

/-- `LimitOrder` from `src/primitives.rs`: the resting order record.
`price` is the `f64` bit pattern, `filled_volume` is the `Option<Volume>`
field. -/
structure LimitOrder where
  id : ℕ
  side : OrderSide
  timestamp : ℕ
  price : ℕ
  volume : ℕ
  filled_volume : Option ℕ
deriving DecidableEq

/-- `volume - filled_volume.unwrap_or(Volume::ZERO)`, the expression the
source computes wherever it needs the unfilled remainder of an order. -/
def LimitOrder.remaining (o : LimitOrder) : ℕ :=
  o.volume - o.filled_volume.getD 0

/-- `Order` from `src/primitives.rs`: the submitter-facing order. -/
structure Order where
  id : ℕ
  side : OrderSide
  kind : OrderType
  price : Option ℕ
  volume : ℕ
  timestamp : ℕ
deriving DecidableEq

/-- `Level` from `src/lib.rs`: one price point with its FIFO of order ids. -/
structure Level where
  index : Option ℕ
  price : ℕ
  total_volume : ℕ
  orders : List ℕ
deriving DecidableEq

/-- `Level::new`. -/
def Level.new (price : ℕ) : Level :=
  { index := none, price := price, total_volume := 0, orders := [] }

/-- `Level::add_order`: adds the order's full `volume` to `total_volume`
and pushes the id at the back of the FIFO. -/
def Level.add_order (l : Level) (o : LimitOrder) : Level :=
  { l with total_volume := l.total_volume + o.volume, orders := l.orders ++ [o.id] }

/-- `Level::reduce_volume`. -/
def Level.reduce_volume (l : Level) (v : ℕ) : Level :=
  { l with total_volume := l.total_volume - v }

/-- `Limits` from `src/lib.rs`: one side of the book. -/
structure Limits where
  levels : List Level
  level_map : List (ℕ × ℕ)
  removed_levels : List (ℕ × ℕ)
  best : Option ℕ
deriving DecidableEq

def Limits.empty : Limits :=
  { levels := [], level_map := [], removed_levels := [], best := none }

/-- `Limits::get_best_limit`. -/
def Limits.get_best_limit (L : Limits) : Option ℕ :=
  match L.best with
  | some i => (L.levels.get? i).map (·.price)
  | none => none

/-- `Limits::add_order` (src/lib.rs:148-194).  The source pushes the new
level and then immediately writes its own stable index into it; here the
index is written into the record before the append, which yields the same
arena.  The best-pointer check reads the arena after the push, exactly as
the source does. -/
def Limits.add_order (L : Limits) (o : LimitOrder) : Limits :=
  let L :=
    match removeKey o.price L.removed_levels with
    | (some idx, rm) =>
        { L with removed_levels := rm, level_map := store o.price idx L.level_map }
    | (none, _) => L
  match look o.price L.level_map with
  | none =>
      let idx := L.levels.length
      let level := { (Level.new o.price).add_order o with index := some idx }
      let L := { L with
        levels := L.levels ++ [level],
        level_map := store o.price idx L.level_map }
      match L.best with
      | some current_best =>
          match L.levels.get? current_best with
          | some best_level =>
              match o.side with
              | OrderSide.Buy =>
                  if best_level.price < o.price then { L with best := some idx } else L
              | OrderSide.Sell =>
                  if o.price < best_level.price then { L with best := some idx } else L
          | none => L
      | none => { L with best := some idx }
  | some idx =>
      { L with levels := modifyAt L.levels idx (·.add_order o) }

/-- `Limits::cancel_order` (src/lib.rs:199-217): subtract the order's
remaining volume from its level; if the level drains to zero, move its
mapping to `removed_levels` and clear `best` when it pointed there. -/
def Limits.cancel_order (L : Limits) (o : LimitOrder) : Limits :=
  match look o.price L.level_map with
  | none => L
  | some idx =>
      match L.levels.get? idx with
      | none => L
      | some lvl =>
          let lvl' := lvl.reduce_volume o.remaining
          let L := { L with levels := modifyAt L.levels idx (fun _ => lvl') }
          if lvl'.total_volume = 0 then
            let L := if L.best = some idx then { L with best := none } else L
            { L with
              level_map := (removeKey o.price L.level_map).2,
              removed_levels := store o.price idx L.removed_levels }
          else L

/-- `CancelOrderError` from `src/lib.rs`. -/
inductive CancelOrderError where
  | NotFound (id : ℕ)
  | AlreadyCancelled (id : ℕ)
deriving DecidableEq

/-- `OrderBookError` from `src/lib.rs`.  `OrderCannotBePlaced` carries a
`String` in the source; the message plays no role in control flow. -/
inductive OrderBookError where
  | OrderCannotBePlaced
  | NoOrderToMatch
  | CancelOrderErr (e : CancelOrderError)
  | LevelHasNoValidOrders
deriving DecidableEq

/-- `CancellationStatus`; `NotCancelled` carries a `String` message in the
source. -/
inductive CancellationStatus where
  | Cancelled
  | NotCancelled
deriving DecidableEq

/-- `CancellationReport`. -/
structure CancellationReport where
  order_id : ℕ
  status : CancellationStatus
deriving DecidableEq

/-- `Fill`. -/
structure Fill where
  buy_order_id : ℕ
  sell_order_id : ℕ
  buy_order_price : ℕ
  sell_order_price : ℕ
  volume : ℕ
deriving DecidableEq

/-- `FillAtMarket`. -/
structure FillAtMarket where
  market_order_id : ℕ
  order_id : ℕ
  order_price : ℕ
  filled_volume : ℕ
deriving DecidableEq

/-- `OrderBook` from `src/lib.rs`.  The source stores
`spread = Spread(ask_best - bid_best)` as an `f64` difference; that float
is a function of the two best price bit patterns, so the spread is
modelled as the pair (ask best bits, bid best bits). -/
structure OrderBook where
  bids : Limits
  asks : Limits
  orders : List (ℕ × LimitOrder)
  spread : Option (ℕ × ℕ)
deriving DecidableEq

def OrderBook.empty : OrderBook :=
  { bids := Limits.empty, asks := Limits.empty, orders := [], spread := none }

/-- `OrderBook::update_spreads`. -/
def OrderBook.update_spreads (b : OrderBook) : OrderBook :=
  match b.asks.get_best_limit, b.bids.get_best_limit with
  | some a, some d => { b with spread := some (a, d) }
  | _, _ => { b with spread := none }

/-- `OrderBook::add_order` (src/lib.rs:296-303). -/
def OrderBook.add_order (b : OrderBook) (o : LimitOrder) : OrderBook :=
  let b :=
    match o.side with
    | OrderSide.Buy => { b with bids := b.bids.add_order o }
    | OrderSide.Sell => { b with asks := b.asks.add_order o }
  let b := { b with orders := store o.id o b.orders }
  b.update_spreads

/-- `Iterator::max` over levels ordered by price (ties: last wins), as used
by `update_best_buy`. -/
def maxByPriceLast (ls : List Level) : Option Level :=
  ls.foldl
    (fun acc l =>
      match acc with
      | none => some l
      | some m => if m.price ≤ l.price then some l else some m)
    none

/-- `Iterator::min` over levels ordered by price (ties: first wins), as
used by `update_best_sell`. -/
def minByPriceFirst (ls : List Level) : Option Level :=
  ls.foldl
    (fun acc l =>
      match acc with
      | none => some l
      | some m => if l.price < m.price then some l else some m)
    none

/-- `OrderBook::update_best_buy`: scan bid levels with positive volume for
the maximum price; leave `best` unchanged when none qualifies. -/
def OrderBook.update_best_buy (b : OrderBook) : OrderBook :=
  match maxByPriceLast (b.bids.levels.filter (fun l => 0 < l.total_volume)) with
  | some m => { b with bids := { b.bids with best := look m.price b.bids.level_map } }
  | none => b

/-- `OrderBook::update_best_sell`. -/
def OrderBook.update_best_sell (b : OrderBook) : OrderBook :=
  match minByPriceFirst (b.asks.levels.filter (fun l => 0 < l.total_volume)) with
  | some m => { b with asks := { b.asks with best := look m.price b.asks.level_map } }
  | none => b

/-- `OrderBook::get_best_sell`. -/
def OrderBook.get_best_sell (b : OrderBook) : Option ℕ :=
  b.asks.get_best_limit

/-- `OrderBook::get_best_buy`. -/
def OrderBook.get_best_buy (b : OrderBook) : Option ℕ :=
  b.bids.get_best_limit

/-- `OrderBook::get_best_sell_volume`. -/
def OrderBook.get_best_sell_volume (b : OrderBook) : Option ℕ :=
  b.asks.best.bind (fun i => (b.asks.levels.get? i).map (·.total_volume))

/-- `OrderBook::get_best_buy_volume`. -/
def OrderBook.get_best_buy_volume (b : OrderBook) : Option ℕ :=
  b.bids.best.bind (fun i => (b.bids.levels.get? i).map (·.total_volume))

/-- `OrderBook::get_volume_at_limit`.  The source indexes the arena with
`levels[index]`, which panics on a dangling index; the dangling case is
modelled as `none` (it is unreachable for the books considered here, whose
map indices are valid). -/
def OrderBook.get_volume_at_limit (b : OrderBook) (p : ℕ) (side : OrderSide) : Option ℕ :=
  let m := match side with
    | OrderSide.Buy => b.bids
    | OrderSide.Sell => b.asks
  (look p m.level_map).bind (fun i => (m.levels.get? i).map (·.total_volume))

/-- Result of `OrderBook::cancel_order`. -/
inductive CancelResult where
  | ok (report : CancellationReport)
  | err (e : CancelOrderError)
deriving DecidableEq

/-- `OrderBook::cancel_order` (src/lib.rs:374-392): remove from the order
map; if absent return `NotFound`, otherwise forward to the owning side's
`cancel_order`. -/
def OrderBook.cancel_order (b : OrderBook) (oid : ℕ) : CancelResult × OrderBook :=
  match look oid b.orders with
  | none => (CancelResult.err (CancelOrderError.NotFound oid), b)
  | some o =>
      let b := { b with orders := (removeKey oid b.orders).2 }
      let b :=
        match o.side with
        | OrderSide.Buy => { b with bids := b.bids.cancel_order o }
        | OrderSide.Sell => { b with asks := b.asks.cancel_order o }
      (CancelResult.ok { order_id := oid, status := CancellationStatus.Cancelled }, b)

/-- Result of `OrderBook::find_and_fill_best_orders`. -/
inductive FillResult where
  | ok (fill : Fill)
  | err (e : OrderBookError)
deriving DecidableEq

/-- The stale-id pruning loop both `while let` loops of `find_and_fill`
perform: pop ids absent from the order map off the FIFO front until the
head resolves to a live order; `none` when the FIFO runs out. -/
def findLive (omap : List (ℕ × LimitOrder)) : List ℕ → Option (LimitOrder × List ℕ)
  | [] => none
  | oid :: rest =>
      match look oid omap with
      | none => findLive omap rest
      | some o => some (o, oid :: rest)

/-- `OrderBook::find_and_fill` (src/lib.rs:462-553).  Early exits: missing
best or dangling best index, the zero-volume check, then the price check.
Then the FIFOs are pruned; a live pair produces the fill, popping a fully
consumed order from its FIFO and otherwise reducing the level volume.
The pruned (possibly emptied) FIFOs are written back in every branch the
source reaches after mutating them. -/
def OrderBook.find_and_fill (b : OrderBook) : FillResult × OrderBook :=
  match b.bids.best with
  | none => (FillResult.err OrderBookError.NoOrderToMatch, b)
  | some bi =>
  match b.asks.best with
  | none => (FillResult.err OrderBookError.NoOrderToMatch, b)
  | some si =>
  match b.bids.levels.get? bi with
  | none => (FillResult.err OrderBookError.NoOrderToMatch, b)
  | some bl =>
  match b.asks.levels.get? si with
  | none => (FillResult.err OrderBookError.NoOrderToMatch, b)
  | some sl =>
  if bl.total_volume = 0 ∨ sl.total_volume = 0 then
    (FillResult.err OrderBookError.LevelHasNoValidOrders, b)
  else if bl.price < sl.price then
    (FillResult.err OrderBookError.NoOrderToMatch, b)
  else
    match findLive b.orders bl.orders with
    | none =>
        let b := { b with bids := { b.bids with
          levels := modifyAt b.bids.levels bi (fun _ => { bl with orders := [] }) } }
        (FillResult.err OrderBookError.NoOrderToMatch, b)
    | some (buy_order, bfifo) =>
        match findLive b.orders sl.orders with
        | none =>
            let b := { b with
              bids := { b.bids with
                levels := modifyAt b.bids.levels bi (fun _ => { bl with orders := bfifo }) },
              asks := { b.asks with
                levels := modifyAt b.asks.levels si (fun _ => { sl with orders := [] }) } }
            (FillResult.err OrderBookError.NoOrderToMatch, b)
        | some (sell_order, sfifo) =>
            let buy_volume := buy_order.remaining
            let sell_volume := sell_order.remaining
            let volume := min buy_volume sell_volume
            let fill : Fill :=
              { buy_order_id := buy_order.id, sell_order_id := sell_order.id,
                buy_order_price := buy_order.price, sell_order_price := sell_order.price,
                volume := volume }
            let bl' :=
              if buy_volume = volume then { bl with orders := bfifo.tail }
              else { bl with orders := bfifo, total_volume := bl.total_volume - volume }
            let sl' :=
              if sell_volume = volume then { sl with orders := sfifo.tail }
              else { sl with orders := sfifo, total_volume := sl.total_volume - volume }
            let b := { b with
              bids := { b.bids with levels := modifyAt b.bids.levels bi (fun _ => bl') },
              asks := { b.asks with levels := modifyAt b.asks.levels si (fun _ => sl') } }
            (FillResult.ok fill, b)

/-- `OrderBook::remove_or_update_filled_orders` (src/lib.rs:424-460): a
fully consumed participant is removed from the order map and cancelled on
its side (with its pre-fill `filled_volume`); a partial one gets its
`filled_volume` bumped by the fill volume. -/
def OrderBook.remove_or_update_filled_orders (b : OrderBook) (fill : Fill) : OrderBook :=
  let b :=
    match look fill.buy_order_id b.orders with
    | none => b
    | some buy_order =>
        if buy_order.remaining = fill.volume then
          let b := { b with orders := (removeKey fill.buy_order_id b.orders).2 }
          { b with bids := b.bids.cancel_order buy_order }
        else
          let buy_order' := { buy_order with
            filled_volume := some (buy_order.filled_volume.getD 0 + fill.volume) }
          { b with orders := store fill.buy_order_id buy_order' b.orders }
  match look fill.sell_order_id b.orders with
  | none => b
  | some sell_order =>
      if sell_order.remaining = fill.volume then
        let b := { b with orders := (removeKey fill.sell_order_id b.orders).2 }
        { b with asks := b.asks.cancel_order sell_order }
      else
        let sell_order' := { sell_order with
          filled_volume := some (sell_order.filled_volume.getD 0 + fill.volume) }
        { b with orders := store fill.sell_order_id sell_order' b.orders }

/-- `OrderBook::find_and_fill_best_orders` (src/lib.rs:406-422). -/
def OrderBook.find_and_fill_best_orders (b : OrderBook) : FillResult × OrderBook :=
  match b.find_and_fill with
  | (FillResult.err e, b) => (FillResult.err e, b)
  | (FillResult.ok fill, b) =>
      let b := b.remove_or_update_filled_orders fill
      let b := if b.asks.best = none then b.update_best_sell else b
      let b := if b.bids.best = none then b.update_best_buy else b
      let b := b.update_spreads
      (FillResult.ok fill, b)

/-- Result of the per-level market fill loop.  `corrupted` models the
source's `panic!("OrderBook is corrupted")` on a failed sanity check. -/
inductive MarketLevelFill where
  | ok (fill : FillAtMarket) (orders : List (ℕ × LimitOrder)) (level : Level)
  | noMatch (level : Level)
  | corrupted
deriving DecidableEq

/-- The FIFO walk shared by `fill_sell_market_order_from_buy_level` and
`fill_buy_market_order_from_sell_level` (their bodies are identical in the
source): skip stale ids; at the first live resting order emit a
`FillAtMarket` whose `filled_volume` is the resting order's full remaining
volume in BOTH branches; pop the FIFO head in the `remaining <= market`
branch, reduce the level volume in the other branch. -/
def marketLevelLoop (mo : Order) (omap : List (ℕ × LimitOrder)) (lvl : Level) :
    List ℕ → MarketLevelFill
  | [] => MarketLevelFill.noMatch { lvl with orders := [] }
  | oid :: rest =>
      match look oid omap with
      | none => marketLevelLoop mo omap lvl rest
      | some limit_order =>
          let remaining_limit_volume := limit_order.remaining
          if remaining_limit_volume ≤ mo.volume then
            let fill : FillAtMarket :=
              { market_order_id := mo.id, order_id := limit_order.id,
                order_price := limit_order.price, filled_volume := remaining_limit_volume }
            let limit_order' := { limit_order with
              filled_volume :=
                some (limit_order.filled_volume.getD 0 + remaining_limit_volume) }
            let omap := store oid limit_order' omap
            if limit_order'.volume ≠ limit_order'.filled_volume.getD 0 then
              MarketLevelFill.corrupted
            else
              MarketLevelFill.ok fill omap { lvl with orders := rest }
          else
            let fill : FillAtMarket :=
              { market_order_id := mo.id, order_id := limit_order.id,
                order_price := limit_order.price, filled_volume := remaining_limit_volume }
            let limit_order' := { limit_order with
              filled_volume :=
                some (limit_order.filled_volume.getD 0 + remaining_limit_volume) }
            let omap := store oid limit_order' omap
            if limit_order'.volume < limit_order'.filled_volume.getD 0 then
              MarketLevelFill.corrupted
            else
              MarketLevelFill.ok fill omap
                (Level.reduce_volume { lvl with orders := oid :: rest }
                  remaining_limit_volume)

/-- Result of a level-targeted market fill carrying the updated book. -/
inductive LevelFillResult where
  | ok (fill : FillAtMarket) (book : OrderBook)
  | err (book : OrderBook)
  | corrupted
deriving DecidableEq

/-- `OrderBook::fill_sell_market_order_from_buy_level` (src/lib.rs:626-685):
walk the bid level at `idx`. -/
def OrderBook.fill_sell_market_order_from_buy_level
    (b : OrderBook) (mo : Order) (idx : ℕ) : LevelFillResult :=
  match b.bids.levels.get? idx with
  | none => LevelFillResult.err b
  | some lvl =>
      match marketLevelLoop mo b.orders lvl lvl.orders with
      | MarketLevelFill.corrupted => LevelFillResult.corrupted
      | MarketLevelFill.noMatch lvl' =>
          LevelFillResult.err { b with bids := { b.bids with
            levels := modifyAt b.bids.levels idx (fun _ => lvl') } }
      | MarketLevelFill.ok fill omap lvl' =>
          LevelFillResult.ok fill { b with
            orders := omap,
            bids := { b.bids with levels := modifyAt b.bids.levels idx (fun _ => lvl') } }

/-- `OrderBook::fill_buy_market_order_from_sell_level` (src/lib.rs:687-746).
The source body reads `self.bids.levels` here as well — it walks the BID
arena even though the level index it is handed comes from the ask side;
the translation keeps that behaviour. -/
def OrderBook.fill_buy_market_order_from_sell_level
    (b : OrderBook) (mo : Order) (idx : ℕ) : LevelFillResult :=
  match b.bids.levels.get? idx with
  | none => LevelFillResult.err b
  | some lvl =>
      match marketLevelLoop mo b.orders lvl lvl.orders with
      | MarketLevelFill.corrupted => LevelFillResult.corrupted
      | MarketLevelFill.noMatch lvl' =>
          LevelFillResult.err { b with bids := { b.bids with
            levels := modifyAt b.bids.levels idx (fun _ => lvl') } }
      | MarketLevelFill.ok fill omap lvl' =>
          LevelFillResult.ok fill { b with
            orders := omap,
            bids := { b.bids with levels := modifyAt b.bids.levels idx (fun _ => lvl') } }

/-- Result of `OrderBook::fill_market_order`; `corrupted` models the
source's `panic!("OrderBook is corrupted")`. -/
inductive MarketFillResult where
  | ok (fill : FillAtMarket) (book : OrderBook)
  | err (e : OrderBookError) (book : OrderBook)
  | corrupted
deriving DecidableEq

def MarketFillResult.fillPart : MarketFillResult → Option FillAtMarket
  | MarketFillResult.ok f _ => some f
  | _ => none

def MarketFillResult.bookPart : MarketFillResult → Option OrderBook
  | MarketFillResult.ok _ b => some b
  | MarketFillResult.err _ b => some b
  | MarketFillResult.corrupted => none

/-- `OrderBook::fill_buy_market_order` (src/lib.rs:562-592): fill from the
best ask index; a level-fill failure or a vanished filled order panics.
A fully filled resting order is cancelled on the ask side (which does not
remove it from the order map), then the best ask is recomputed if cleared. -/
def OrderBook.fill_buy_market_order (b : OrderBook) (o : Order) : MarketFillResult :=
  match b.asks.best with
  | none => MarketFillResult.err OrderBookError.NoOrderToMatch b
  | some idx =>
      match b.fill_buy_market_order_from_sell_level o idx with
      | LevelFillResult.corrupted => MarketFillResult.corrupted
      | LevelFillResult.err _ => MarketFillResult.corrupted
      | LevelFillResult.ok fill b =>
          match look fill.order_id b.orders with
          | none => MarketFillResult.corrupted
          | some filled_order =>
              let b :=
                if filled_order.volume = filled_order.filled_volume.getD 0 then
                  let b := { b with asks := b.asks.cancel_order filled_order }
                  if b.asks.best = none then b.update_best_sell else b
                else b
              MarketFillResult.ok fill b

/-- `OrderBook::fill_sell_market_order` (src/lib.rs:594-624). -/
def OrderBook.fill_sell_market_order (b : OrderBook) (o : Order) : MarketFillResult :=
  match b.bids.best with
  | none => MarketFillResult.err OrderBookError.NoOrderToMatch b
  | some idx =>
      match b.fill_sell_market_order_from_buy_level o idx with
      | LevelFillResult.corrupted => MarketFillResult.corrupted
      | LevelFillResult.err _ => MarketFillResult.corrupted
      | LevelFillResult.ok fill b =>
          match look fill.order_id b.orders with
          | none => MarketFillResult.corrupted
          | some filled_order =>
              let b :=
                if filled_order.volume = filled_order.filled_volume.getD 0 then
                  let b := { b with bids := b.bids.cancel_order filled_order }
                  if b.bids.best = none then b.update_best_buy else b
                else b
              MarketFillResult.ok fill b

/-- `OrderBook::fill_market_order` (src/lib.rs:555-560). -/
def OrderBook.fill_market_order (b : OrderBook) (o : Order) : MarketFillResult :=
  match o.side with
  | OrderSide.Buy => b.fill_buy_market_order o
  | OrderSide.Sell => b.fill_sell_market_order o

/-! Price comparison model (`Ord for Price`, src/primitives.rs:107-112).
The source compares `f64::to_bits` values as `u64`s; `Price.cmpBits` is
that comparison on the bit patterns. -/

/-- `Ord::cmp` for `Price`: unsigned comparison of the raw bit patterns. -/
def Price.cmpBits (x y : ℕ) : Ordering :=
  if x < y then Ordering.lt else if x = y then Ordering.eq else Ordering.gt

/-- Sign bit of an `f64` bit pattern. -/
def f64sign (b : ℕ) : ℕ := b / 2 ^ 63

/-- Biased exponent field of an `f64` bit pattern. -/
def f64exp (b : ℕ) : ℕ := b / 2 ^ 52 % 2 ^ 11

/-- Mantissa field of an `f64` bit pattern. -/
def f64mant (b : ℕ) : ℕ := b % 2 ^ 52

/-- The bit pattern encodes a normal finite double: exponent field neither
zero (subnormal) nor 2047 (infinity / NaN). -/
def IsNormalFinite (b : ℕ) : Prop :=
  b < 2 ^ 64 ∧ 1 ≤ f64exp b ∧ f64exp b ≤ 2046

instance (b : ℕ) : Decidable (IsNormalFinite b) := by
  unfold IsNormalFinite; infer_instance

/-- Numeric value of a NORMAL finite `f64` bit pattern, as a rational:
`(-1)^sign * (2^52 + mantissa) * 2^(exponent) / 2^1075`
(the usual `(-1)^s * 1.m * 2^(e-1023)` rescaled to integers). -/
def f64val (b : ℕ) : ℚ :=
  (if f64sign b = 0 then 1 else -1) * ((2 ^ 52 + (f64mant b : ℚ)) * 2 ^ f64exp b) / 2 ^ 1075

/-! Level-volume invariant (spec §8 invariant 1): a level's `total_volume`
equals the summed remaining volume of the FIFO ids still present in the
order map. -/

/-- Sum of `remaining` over the FIFO ids that still exist in the order map. -/
def sumRemaining (omap : List (ℕ × LimitOrder)) (ids : List ℕ) : ℕ :=
  ids.foldl
    (fun acc oid =>
      match look oid omap with
      | some o => acc + o.remaining
      | none => acc)
    0

/-- The level-volume invariant for one level. -/
def levelInvariant (omap : List (ℕ × LimitOrder)) (l : Level) : Prop :=
  l.total_volume = sumRemaining omap l.orders

instance (omap : List (ℕ × LimitOrder)) (l : Level) :
    Decidable (levelInvariant omap l) := by
  unfold levelInvariant; infer_instance

/-! Concrete scenario inputs used by the claims.  Prices are IEEE-754 bit
patterns of the `f64` literals the spec scenarios use. -/

/-- Bit pattern of `21.0`. -/
def p21 : ℕ := 1027 * 2 ^ 52 + 5 * 2 ^ 48

/-- Bit pattern of `22.0`. -/
def p22 : ℕ := 1027 * 2 ^ 52 + 6 * 2 ^ 48

/-- Bit pattern of `30.0`. -/
def p30 : ℕ := 1027 * 2 ^ 52 + 14 * 2 ^ 48

/-- Bit pattern of `21.0453`. -/
def pA : ℕ := 4626616943009497665

/-- Bit pattern of `21.0454`. -/
def pB : ℕ := 4626616971156995336

/-- S1: resting limit sell id=1 p=21.0 v=100. -/
def sellO1 : LimitOrder := ⟨1, OrderSide.Sell, 0, p21, 100, none⟩

/-- S1: limit buy id=3 p=22.0 v=50. -/
def buyO3 : LimitOrder := ⟨3, OrderSide.Buy, 0, p22, 50, none⟩

/-- S1 book: sell id=1 then buy id=3 added to an empty book. -/
def s1Book : OrderBook := (OrderBook.empty.add_order sellO1).add_order buyO3

/-- S1 book after one `find_and_fill_best_orders` call. -/
def s1After : OrderBook := (s1Book.find_and_fill_best_orders).2

/-- S6 book after resting ask id=1 p=30 v=5. -/
def c4b1 : OrderBook := OrderBook.empty.add_order ⟨1, OrderSide.Sell, 0, p30, 5, none⟩

/-- S6 book after cancelling id=1 (level drained, moved to the removed map). -/
def c4b2 : OrderBook := (c4b1.cancel_order 1).2

/-- S6 book after adding ask id=2 p=30 v=7 (level revival). -/
def c4Book : OrderBook := c4b2.add_order ⟨2, OrderSide.Sell, 0, p30, 7, none⟩

/-- C1 failing input: one resting bid id=1 p=10(bits) v=100. -/
def c1Book : OrderBook := OrderBook.empty.add_order ⟨1, OrderSide.Buy, 0, 10, 100, none⟩

/-- C1 failing input: market sell id=2 v=50, half the resting head. -/
def c1Mkt : Order := ⟨2, OrderSide.Sell, OrderType.Market, none, 50, 0⟩

/-- The resting bid of the C1 failing input. -/
def c1Resting : LimitOrder := ⟨1, OrderSide.Buy, 0, 10, 100, none⟩

/-- S4 book: asks id=1 p=21.0453 v=100 and id=2 p=21.0454 v=50. -/
def s4Book : OrderBook :=
  (OrderBook.empty.add_order ⟨1, OrderSide.Sell, 0, pA, 100, none⟩).add_order
    ⟨2, OrderSide.Sell, 0, pB, 50, none⟩

/-- S4 market buy id=3 v=150. -/
def s4Mkt : Order := ⟨3, OrderSide.Buy, OrderType.Market, none, 150, 0⟩

/-- C3 failing input: book with a single resting ask id=1 p=21.0453 v=100. -/
def c3Book : OrderBook := OrderBook.empty.add_order ⟨1, OrderSide.Sell, 0, pA, 100, none⟩

/-- C3 failing input: market buy id=2 v=10. -/
def c3Mkt : Order := ⟨2, OrderSide.Buy, OrderType.Market, none, 10, 0⟩

/-- C5 failing input: one resting bid id=1 p=10(bits) v=10. -/
def c5Book : OrderBook := OrderBook.empty.add_order ⟨1, OrderSide.Buy, 0, 10, 10, none⟩

/-- C5 failing input: market sell id=2 v=10, exactly the resting head. -/
def c5Mkt : Order := ⟨2, OrderSide.Sell, OrderType.Market, none, 10, 0⟩

/-- C5: the book after the full market fill. -/
def c5After : OrderBook :=
  ((c5Book.fill_market_order c5Mkt).bookPart).getD OrderBook.empty

/-- C7 counterexample: the resting ask behind the ask level. -/
def c7AskOrder : LimitOrder := ⟨7, OrderSide.Sell, 0, 9, 4, none⟩

/-- C7 bid-side best level: price 5, drained (`total_volume = 0`). -/
def c7BidLevel : Level := ⟨some 0, 5, 0, []⟩

/-- C7 ask-side best level: price 9, volume 4, FIFO `[7]`. -/
def c7AskLevel : Level := ⟨some 0, 9, 4, [7]⟩

/-- C7 counterexample book: both bests set, best bid price 5 < best ask
price 9 (not crossed), but the best bid level's `total_volume` is zero. -/
def c7Book : OrderBook :=
  { bids := { levels := [c7BidLevel], level_map := [(5, 0)],
              removed_levels := [], best := some 0 },
    asks := { levels := [c7AskLevel], level_map := [(9, 0)],
              removed_levels := [], best := some 0 },
    orders := [(7, c7AskOrder)], spread := none }

/-- C6 witness: a resting bid id=5. -/
def c6Order : LimitOrder := ⟨5, OrderSide.Buy, 0, 10, 8, none⟩

/-- C6 witness book. -/
def c6Book : OrderBook := OrderBook.empty.add_order c6Order

/-- C10 witness: initial resting bid id=1 p=10 v=5. -/
def c10Old : LimitOrder := ⟨1, OrderSide.Buy, 0, 10, 5, none⟩

/-- C10 witness book holding the original order. -/
def c10Book : OrderBook := OrderBook.empty.add_order c10Old

/-- C10 witness: a second limit order reusing id=1 at a fresh price. -/
def c10New : LimitOrder := ⟨1, OrderSide.Buy, 0, 20, 7, none⟩

/-! Association-list lemmas, matching the `HashMap` contract. -/

theorem look_eq_none_of_not_mem {α : Type} (k : ℕ) (m : List (ℕ × α))
    (h : k ∉ m.map Prod.fst) : look k m = none := by
  induction m with
  | nil => rfl
  | cons p rest ih =>
      simp only [List.map_cons, List.mem_cons] at h
      push_neg at h
      simp only [look]
      rw [if_neg fun hk => h.1 hk.symm]
      exact ih h.2

theorem look_removeKey_self {α : Type} (k : ℕ) (m : List (ℕ × α))
    (h : (m.map Prod.fst).Nodup) : look k (removeKey k m).2 = none := by
  induction m with
  | nil => rfl
  | cons p rest ih =>
      rcases p with ⟨k', v⟩
      simp only [List.map_cons, List.nodup_cons] at h
      by_cases hk : k' = k
      · subst hk
        simp only [removeKey, if_pos rfl]
        exact look_eq_none_of_not_mem k' rest h.1
      · simp only [removeKey, if_neg hk, look]
        exact ih h.2

theorem look_store_self {α : Type} (k : ℕ) (v : α) (m : List (ℕ × α)) :
    look k (store k v m) = some v := by
  induction m with
  | nil => simp [store, look]
  | cons p rest ih =>
      rcases p with ⟨k', v'⟩
      by_cases hk : k' = k
      · subst hk; simp [store, look]
      · simp only [store, if_neg hk, look]
        exact ih

theorem look_store_ne {α : Type} (k k' : ℕ) (v : α) (m : List (ℕ × α))
    (h : k' ≠ k) : look k' (store k v m) = look k' m := by
  induction m with
  | nil =>
      simp only [store, look]
      rw [if_neg fun hk => h hk.symm]
  | cons p rest ih =>
      rcases p with ⟨k₀, v₀⟩
      by_cases hk : k₀ = k
      · subst hk
        simp only [store, if_pos rfl, look]
        rw [if_neg fun hk => h hk.symm, if_neg fun hk => h hk.symm]
      · simp only [store, if_neg hk, look]
        by_cases hk' : k₀ = k'
        · rw [if_pos hk', if_pos hk']
        · rw [if_neg hk', if_neg hk']
          exact ih

/-! Claim theorems. -/

/-- Claim C1 (code_bug evidence): with a single resting bid of volume 100
and a market sell of volume 50 (head live, `min(remaining, market) = 50`),
`fill_market_order` emits a `FillAtMarket` whose `filled_volume` is the
resting order's entire remaining volume 100, not the minimum. -/
theorem C1_market_fill_volume_not_min :
    (c1Book.fill_market_order c1Mkt).fillPart =
      some { market_order_id := 2, order_id := 1, order_price := 10, filled_volume := 100 } ∧
    min c1Resting.remaining c1Mkt.volume = 50 := by
  constructor
  · rfl
  · rfl

/-- Claim C2 (code_bug evidence): on the S4 book (asks 21.0453×100 and
21.0454×50, empty bid side) the very first `fill_market_order` call for
the market buy id=3 v=150 hits the source's
`panic!("OrderBook is corrupted")`, because
`fill_buy_market_order_from_sell_level` walks `self.bids.levels` (empty)
with the best-ask index; the sweep never produces its two fills and the
orders map is never emptied. -/
theorem C2_market_sweep_panics :
    s4Book.fill_market_order s4Mkt = MarketFillResult.corrupted := by
  rfl

/-- Claim C3 (code_bug evidence): with one live resting ask and an empty
bid side, a Buy market order is not matched against the best ask level:
the code reads the bid arena at the ask index, finds nothing, and panics
(`corrupted`) instead of emitting a `FillAtMarket` for the ask head. -/
theorem C3_buy_market_order_reads_bid_arena :
    c3Book.asks.best = some 0 ∧
    (c3Book.asks.levels.get? 0).map Level.orders = some [1] ∧
    look 1 c3Book.orders ≠ none ∧
    c3Book.fill_market_order c3Mkt = MarketFillResult.corrupted := by
  refine ⟨rfl, rfl, by decide, rfl⟩

/-- Claim C4 counterexample: after resting ask id=1 p=30 v=5, cancelling
it, and adding ask id=2 p=30 v=7, `best_ask()` (i.e. `get_best_sell`)
returns `none`, not 30: the best pointer cleared by the cancel is not
restored when the revived level receives the new order. -/
theorem C4_revive_counterexample :
    c4Book.get_best_sell = none ∧ c4Book.get_best_sell ≠ some p30 := by
  refine ⟨rfl, by decide⟩

/-- Claim C4 amended: the price-30 level is revived at the same stable
arena index 0 (it sat in the removed map after the cancel), and
`volume_at(30, Sell)` returns 7, but `best_ask()` returns `none` — the
best pointer cleared by the cancel is not restored by `add_order`; only
the matching paths recompute it. -/
theorem C4_revive_amended :
    look p30 c4b1.asks.level_map = some 0 ∧
    look p30 c4b2.asks.removed_levels = some 0 ∧
    look p30 c4b2.asks.level_map = none ∧
    look p30 c4Book.asks.level_map = some 0 ∧
    c4Book.get_volume_at_limit p30 OrderSide.Sell = some 7 ∧
    c4Book.get_best_sell = none := by
  refine ⟨rfl, rfl, rfl, rfl, rfl, rfl⟩

/-- Claim C5 (code_bug evidence): the level-volume invariant holds on the
one-bid book, but after the market sell that exactly consumes the resting
head, the bid level keeps `total_volume = 10` with an empty FIFO (sum of
remaining = 0) and the filled order id=1 is still present in the orders
map: `fill_market_order` does not preserve the invariant. -/
theorem C5_fill_market_order_breaks_level_invariant :
    (∀ l ∈ c5Book.bids.levels, levelInvariant c5Book.orders l) ∧
    (c5Book.fill_market_order c5Mkt).bookPart = some c5After ∧
    (c5After.bids.levels.map Level.total_volume = [10]) ∧
    (c5After.bids.levels.map Level.orders = [[]]) ∧
    look 1 c5After.orders ≠ none ∧
    ¬ (∀ l ∈ c5After.bids.levels, levelInvariant c5After.orders l) := by
  refine ⟨by decide, rfl, rfl, rfl, by decide, by decide⟩

/-- Claim C8 (S1 simple cross): sell id=1 p=21.0 v=100 then buy id=3
p=22.0 v=50 give best ask 21.0 and best bid 22.0; one match-best call
yields Fill{buy 3, sell 1, prices 22.0/21.0, volume 50}; afterwards order
3 is gone, order 1 has remaining 50, best bid is none and best ask is 21.0
with volume 50. -/
theorem C8_simple_cross_scenario :
    s1Book.get_best_sell = some p21 ∧
    s1Book.get_best_buy = some p22 ∧
    (s1Book.find_and_fill_best_orders).1 =
      FillResult.ok { buy_order_id := 3, sell_order_id := 1,
                      buy_order_price := p22, sell_order_price := p21, volume := 50 } ∧
    look 3 s1After.orders = none ∧
    (look 1 s1After.orders).map LimitOrder.remaining = some 50 ∧
    s1After.get_best_buy = none ∧
    s1After.get_best_sell = some p21 ∧
    s1After.get_best_sell_volume = some 50 := by
  refine ⟨rfl, rfl, rfl, rfl, rfl, rfl, rfl, rfl⟩

/-- Claim C7 counterexample: a book with both bests set and best bid price
5 < best ask price 9 (not crossed) whose best bid level has zero
`total_volume`: `find_and_fill_best_orders` returns
`LevelHasNoValidOrders`, not `NoOrderToMatch` — the zero-volume check
precedes the price check. -/
theorem C7_counterexample_zero_volume_precedes_price_check :
    c7Book.get_best_buy = some 5 ∧
    c7Book.get_best_sell = some 9 ∧
    (5 : ℕ) < 9 ∧
    (c7Book.find_and_fill_best_orders).1 =
      FillResult.err OrderBookError.LevelHasNoValidOrders ∧
    (c7Book.find_and_fill_best_orders).1 ≠
      FillResult.err OrderBookError.NoOrderToMatch := by
  refine ⟨rfl, rfl, by decide, rfl, by decide⟩

theorem cancel_order_miss (b : OrderBook) (i : ℕ)
    (h : look i b.orders = none) :
    b.cancel_order i = (CancelResult.err (CancelOrderError.NotFound i), b) := by
  simp [OrderBook.cancel_order, h]

theorem cancel_order_orders (b : OrderBook) (i : ℕ) (o : LimitOrder)
    (h : look i b.orders = some o) :
    (b.cancel_order i).2.orders = (removeKey i b.orders).2 := by
  cases hs : o.side <;> simp [OrderBook.cancel_order, h, hs]

/-- Claim C6: cancelling a resting order succeeds with a `Cancelled`
report, and an immediately repeated cancel of the same id returns
`NotFound` and leaves the whole book state unchanged.  The `Nodup`
hypothesis is the `HashMap` key-uniqueness representation invariant of
the order map. -/
theorem C6_cancel_idempotent (b : OrderBook) (i : ℕ) (o : LimitOrder)
    (hnodup : (b.orders.map Prod.fst).Nodup)
    (h : look i b.orders = some o) :
    (b.cancel_order i).1 =
      CancelResult.ok { order_id := i, status := CancellationStatus.Cancelled } ∧
    (b.cancel_order i).2.cancel_order i =
      (CancelResult.err (CancelOrderError.NotFound i), (b.cancel_order i).2) := by
  constructor
  · cases hs : o.side <;> simp [OrderBook.cancel_order, h, hs]
  · refine cancel_order_miss _ i ?_
    rw [cancel_order_orders b i o h]
    exact look_removeKey_self i b.orders hnodup

/-- Claim C6 witness: the law at a concrete one-order book. -/
theorem C6_cancel_idempotent_witness :
    (c6Book.cancel_order 5).1 =
      CancelResult.ok { order_id := 5, status := CancellationStatus.Cancelled } ∧
    (c6Book.cancel_order 5).2.cancel_order 5 =
      (CancelResult.err (CancelOrderError.NotFound 5), (c6Book.cancel_order 5).2) :=
  C6_cancel_idempotent c6Book 5 c6Order (by decide) (by decide)

theorem find_and_fill_no_best (b : OrderBook)
    (h : b.bids.best = none ∨ b.asks.best = none) :
    b.find_and_fill = (FillResult.err OrderBookError.NoOrderToMatch, b) := by
  rcases h with h | h
  · simp [OrderBook.find_and_fill, h]
  · cases hb : b.bids.best <;> simp [OrderBook.find_and_fill, hb, h]

theorem find_and_fill_zero_volume (b : OrderBook) (bi si : ℕ) (bl sl : Level)
    (hb : b.bids.best = some bi) (hs : b.asks.best = some si)
    (hbl : b.bids.levels.get? bi = some bl) (hsl : b.asks.levels.get? si = some sl)
    (hz : bl.total_volume = 0 ∨ sl.total_volume = 0) :
    b.find_and_fill = (FillResult.err OrderBookError.LevelHasNoValidOrders, b) := by
  simp only [List.get?_eq_getElem?] at hbl hsl
  simp [OrderBook.find_and_fill, hb, hs, hbl, hsl, hz]

theorem find_and_fill_not_crossed (b : OrderBook) (bi si : ℕ) (bl sl : Level)
    (hb : b.bids.best = some bi) (hs : b.asks.best = some si)
    (hbl : b.bids.levels.get? bi = some bl) (hsl : b.asks.levels.get? si = some sl)
    (hz1 : bl.total_volume ≠ 0) (hz2 : sl.total_volume ≠ 0)
    (hp : bl.price < sl.price) :
    b.find_and_fill = (FillResult.err OrderBookError.NoOrderToMatch, b) := by
  simp only [List.get?_eq_getElem?] at hbl hsl
  simp [OrderBook.find_and_fill, hb, hs, hbl, hsl, hz1, hz2, hp]

theorem ffbo_of_err (b : OrderBook) (e : OrderBookError)
    (h : b.find_and_fill = (FillResult.err e, b)) :
    b.find_and_fill_best_orders = (FillResult.err e, b) := by
  simp [OrderBook.find_and_fill_best_orders, h]

/-- Claim C7 amended: the early exits of `find_and_fill_best_orders` in
the source's order.  A missing best on either side gives `NoOrderToMatch`.
With both bests resolving to levels, a zero `total_volume` on either best
level gives `LevelHasNoValidOrders` regardless of the prices (this check
precedes the price check), and with both volumes positive an uncrossed
book (best bid price < best ask price) gives `NoOrderToMatch`. -/
theorem C7_amended_early_exits (b : OrderBook) :
    ((b.bids.best = none ∨ b.asks.best = none) →
       (b.find_and_fill_best_orders).1 = FillResult.err OrderBookError.NoOrderToMatch) ∧
    (∀ bi si bl sl,
       b.bids.best = some bi → b.asks.best = some si →
       b.bids.levels.get? bi = some bl → b.asks.levels.get? si = some sl →
       ((bl.total_volume = 0 ∨ sl.total_volume = 0 →
           (b.find_and_fill_best_orders).1 =
             FillResult.err OrderBookError.LevelHasNoValidOrders) ∧
        (bl.total_volume ≠ 0 → sl.total_volume ≠ 0 → bl.price < sl.price →
           (b.find_and_fill_best_orders).1 =
             FillResult.err OrderBookError.NoOrderToMatch))) := by
  constructor
  · intro h
    rw [ffbo_of_err b _ (find_and_fill_no_best b h)]
  · intro bi si bl sl hb hs hbl hsl
    constructor
    · intro hz
      rw [ffbo_of_err b _ (find_and_fill_zero_volume b bi si bl sl hb hs hbl hsl hz)]
    · intro hz1 hz2 hp
      rw [ffbo_of_err b _
        (find_and_fill_not_crossed b bi si bl sl hb hs hbl hsl hz1 hz2 hp)]

/-- Claim C7 witness: the amended statement applied to the concrete
counterexample book (zero-volume best bid level, uncrossed prices). -/
theorem C7_amended_witness :
    (c7Book.find_and_fill_best_orders).1 =
      FillResult.err OrderBookError.LevelHasNoValidOrders :=
  ((C7_amended_early_exits c7Book).2 0 0 c7BidLevel c7AskLevel
    rfl rfl rfl rfl).1 (Or.inl rfl)

theorem update_spreads_parts (b : OrderBook) :
    (b.update_spreads).bids = b.bids ∧ (b.update_spreads).asks = b.asks ∧
    (b.update_spreads).orders = b.orders := by
  unfold OrderBook.update_spreads
  split <;> simp_all

/-- `Limits::add_order` at a price that is in neither the active map nor
the removed map: the new level is appended at the arena's end and mapped
from the price; nothing else in the arena or the map changes. -/
theorem Limits.add_order_fresh (L : Limits) (o : LimitOrder)
    (hR : (removeKey o.price L.removed_levels).1 = none)
    (hA : look o.price L.level_map = none) :
    (L.add_order o).levels = L.levels ++
        [{ (Level.new o.price).add_order o with index := some L.levels.length }] ∧
    (L.add_order o).level_map = store o.price L.levels.length L.level_map := by
  rcases hRe : removeKey o.price L.removed_levels with ⟨r1, r2⟩
  rw [hRe] at hR
  simp only at hR
  subst hR
  unfold Limits.add_order
  rw [hRe]
  simp only [hA]
  repeat' split
  all_goals exact ⟨rfl, rfl⟩

/-- Claim C10: adding a limit order whose id already rests in the book
reports no error; the orders map silently re-binds the id to the new
order, the old FIFO entry (and the old level's `total_volume`) is left
untouched, and the id is also queued in the level of the new price — so
the same id sits in two level FIFOs.  Stated for a Buy order at a price
which has no level yet; the `fresh` hypotheses say the new price is in
neither bid-side price map. -/
theorem C10_duplicate_id_silent_replace (b : OrderBook) (o old : LimitOrder)
    (i : ℕ) (L : Level)
    (ho : look o.id b.orders = some old)
    (hside : o.side = OrderSide.Buy)
    (hfreshA : look o.price b.bids.level_map = none)
    (hfreshR : (removeKey o.price b.bids.removed_levels).1 = none)
    (hi : b.bids.levels.get? i = some L)
    (hmem : o.id ∈ L.orders) :
    look o.id (b.add_order o).orders = some o ∧
    (b.add_order o).bids.levels.get? i = some L ∧
    o.id ∈ L.orders ∧
    i ≠ b.bids.levels.length ∧
    ((b.add_order o).bids.levels.get? b.bids.levels.length).map Level.orders =
      some [o.id] ∧
    look o.price (b.add_order o).bids.level_map = some b.bids.levels.length := by
  have hlen : i < b.bids.levels.length := by
    rcases List.get?_eq_some.mp hi with ⟨hl, _⟩
    exact hl
  have hadd := Limits.add_order_fresh b.bids o hfreshR hfreshA
  have hb1 :
      (b.add_order o).bids = b.bids.add_order o ∧
      (b.add_order o).orders = store o.id o b.orders := by
    unfold OrderBook.add_order
    rw [hside]
    refine ⟨?_, ?_⟩
    · rw [(update_spreads_parts _).1]
    · rw [(update_spreads_parts _).2.2]
  refine ⟨?_, ?_, hmem, ?_, ?_, ?_⟩
  · rw [hb1.2]; exact look_store_self o.id o b.orders
  · rw [hb1.1, hadd.1, List.get?_append hlen]; exact hi
  · omega
  · rw [hb1.1, hadd.1, List.get?_concat_length]
    rfl
  · rw [hb1.1, hadd.2]; exact look_store_self o.price _ b.bids.level_map

/-- Claim C10 witness: rest bid id=1 p=10 v=5, then add bid id=1 p=20 v=7;
the id now heads both level FIFOs and the orders map holds the new order. -/
theorem C10_duplicate_id_witness :
    look 1 (c10Book.add_order c10New).orders = some c10New ∧
    (c10Book.add_order c10New).bids.levels.get? 0 = some ⟨some 0, 10, 5, [1]⟩ ∧
    (1 : ℕ) ∈ [1] ∧
    (0 : ℕ) ≠ c10Book.bids.levels.length ∧
    ((c10Book.add_order c10New).bids.levels.get? c10Book.bids.levels.length).map
      Level.orders = some [1] ∧
    look 20 (c10Book.add_order c10New).bids.level_map =
      some c10Book.bids.levels.length := by
  have h := C10_duplicate_id_silent_replace c10Book c10New c10Old 0 ⟨some 0, 10, 5, [1]⟩
    (by decide) (by decide) (by decide) (by decide) (by decide) (by decide)
  exact h

/-- Claim C9 counterexample: the bit patterns of `-1.0` and `1.0` are both
normal finite, `-1.0` is numerically smaller, yet the source's bit-pattern
comparison says `gt`, not `lt`: raw bit order reverses numeric order on
negative values, so the comparison does not agree with numeric ordering on
all normal finite values. -/
theorem C9_counterexample_negative_normals :
    IsNormalFinite (2 ^ 63 + 1023 * 2 ^ 52) ∧ IsNormalFinite (1023 * 2 ^ 52) ∧
    f64val (2 ^ 63 + 1023 * 2 ^ 52) < f64val (1023 * 2 ^ 52) ∧
    Price.cmpBits (2 ^ 63 + 1023 * 2 ^ 52) (1023 * 2 ^ 52) ≠ Ordering.lt := by
  refine ⟨by decide, by decide, ?_, by decide⟩
  norm_num [f64val, f64sign, f64exp, f64mant]

theorem f64val_sign_zero (b : ℕ) (hb : f64sign b = 0) :
    f64val b = ((2 ^ 52 + (f64mant b : ℚ)) * 2 ^ f64exp b) / 2 ^ 1075 := by
  unfold f64val
  rw [hb]
  simp

theorem natval_lt_of_f64val_lt (x y : ℕ) (hsx : f64sign x = 0) (hsy : f64sign y = 0)
    (h : f64val x < f64val y) :
    (2 ^ 52 + f64mant x) * 2 ^ f64exp x < (2 ^ 52 + f64mant y) * 2 ^ f64exp y := by
  rw [f64val_sign_zero x hsx, f64val_sign_zero y hsy] at h
  have hpos : (0 : ℚ) < 2 ^ 1075 := by positivity
  rw [div_lt_div_iff₀ hpos hpos] at h
  have h2 := (mul_lt_mul_right hpos).mp h
  exact_mod_cast h2

theorem mantissa_exp_lt (e1 m1 e2 m2 : ℕ) (hm1 : m1 < 2 ^ 52) (hm2 : m2 < 2 ^ 52)
    (h : (2 ^ 52 + m1) * 2 ^ e1 < (2 ^ 52 + m2) * 2 ^ e2) :
    e1 * 2 ^ 52 + m1 < e2 * 2 ^ 52 + m2 := by
  rcases Nat.lt_trichotomy e1 e2 with he | he | he
  · have h2 : (e1 + 1) * 2 ^ 52 ≤ e2 * 2 ^ 52 := Nat.mul_le_mul_right _ he
    have h3 : e1 * 2 ^ 52 + m1 < (e1 + 1) * 2 ^ 52 := by
      have : (e1 + 1) * 2 ^ 52 = e1 * 2 ^ 52 + 2 ^ 52 := by ring
      omega
    omega
  · subst he
    have h4 : 2 ^ 52 + m1 < 2 ^ 52 + m2 :=
      lt_of_mul_lt_mul_right h (Nat.zero_le _)
    omega
  · exfalso
    have h1 : (2 ^ 52 + m2) * 2 ^ e2 < 2 ^ 53 * 2 ^ e2 :=
      Nat.mul_lt_mul_of_lt_of_le (by omega) (le_refl _) (Nat.pos_pow_of_pos e2 (by omega))
    have h2 : (2 : ℕ) ^ 53 * 2 ^ e2 ≤ 2 ^ 52 * 2 ^ e1 := by
      rw [← pow_add, ← pow_add]
      exact Nat.pow_le_pow_right (by omega) (by omega)
    have h3 : (2 : ℕ) ^ 52 * 2 ^ e1 ≤ (2 ^ 52 + m1) * 2 ^ e1 :=
      Nat.mul_le_mul_right _ (by omega)
    omega

theorem f64_decomp (x : ℕ) (hx : x < 2 ^ 63) :
    x = f64exp x * 2 ^ 52 + f64mant x := by
  unfold f64exp f64mant
  have h52 : (2 : ℕ) ^ 52 = 4503599627370496 := by norm_num
  have h63 : (2 : ℕ) ^ 63 = 9223372036854775808 := by norm_num
  have h11 : (2 : ℕ) ^ 11 = 2048 := by norm_num
  rw [h52, h11]
  rw [h63] at hx
  omega

theorem lt_of_sign_zero (x : ℕ) (hsx : f64sign x = 0) : x < 2 ^ 63 := by
  unfold f64sign at hsx
  have h63 : (2 : ℕ) ^ 63 = 9223372036854775808 := by norm_num
  rw [h63] at hsx ⊢
  omega

/-- Claim C9 amended: on normal finite values whose sign bit is clear
(positive prices — the domain of the order book), the source's raw
bit-pattern comparison agrees with numeric ordering: numerically smaller
means `lt`. -/
theorem C9_amended_positive_normals (x y : ℕ)
    (hx : IsNormalFinite x) (hy : IsNormalFinite y)
    (hsx : f64sign x = 0) (hsy : f64sign y = 0)
    (h : f64val x < f64val y) : Price.cmpBits x y = Ordering.lt := by
  have hx63 := lt_of_sign_zero x hsx
  have hy63 := lt_of_sign_zero y hsy
  have hN := natval_lt_of_f64val_lt x y hsx hsy h
  have hmx : f64mant x < 2 ^ 52 := Nat.mod_lt _ (by norm_num)
  have hmy : f64mant y < 2 ^ 52 := Nat.mod_lt _ (by norm_num)
  have hkey := mantissa_exp_lt (f64exp x) (f64mant x) (f64exp y) (f64mant y) hmx hmy hN
  have hxy : x < y := by
    rw [f64_decomp x hx63, f64_decomp y hy63]
    exact hkey
  simp [Price.cmpBits, hxy]

/-- Claim C9 witness: the amended statement at the bit patterns of `1.0`
and `2.0`. -/
theorem C9_amended_witness :
    Price.cmpBits (1023 * 2 ^ 52) (1024 * 2 ^ 52) = Ordering.lt :=
  C9_amended_positive_normals (1023 * 2 ^ 52) (1024 * 2 ^ 52)
    (by decide) (by decide) (by decide) (by decide)
    (by norm_num [f64val, f64sign, f64exp, f64mant])

end LOB
